import Mathlib

/-!
Verification of the `@google-cloud/resource` client library (nodejs-resource).

The library is a thin request-shaping layer: every public method of the
`Resource` and `Project` facades builds one HTTP request descriptor
(`{method, uri, json|body|qs}`), hands it to the inherited transport
(`this.request`), and reshapes the transport's `(err, resp)` completion pair
into the arguments of the user's callback.

The shallow embedding below models:
  * JSON-ish JavaScript values (`JVal`) and objects as ordered key/value
    lists (`JObj`), with JavaScript truthiness (`jvTruthy`), property lookup
    (`lookupObj`) and `Object.assign` merging (`assign`);
  * the request descriptors the methods build (`ReqOpts`);
  * the positional values a completion handler passes to the user callback
    (`CbVal`), including JavaScript `null` and `undefined`;
  * each method as a pure function from its arguments and the transport's
    completion pair `(err, resp)` to the issued request list and the
    resulting callback invocation.

Asynchrony is eliminated: each method performs exactly one transport
round-trip, so the transport is represented by the `(err, resp)` pair its
single completion callback receives (this matches the repository's tests,
which stub `request = (reqOpts, callback) => callback(err, resp)`).
-/

namespace Spec2Proof

/-- JSON-like JavaScript values.  An absent property / `undefined` is
represented by `Option.none` at use sites, not by a `JVal` constructor. -/
inductive JVal where
  | null
  | bool (b : Bool)
  | num (n : Int)
  | str (s : String)
  | arr (elems : List JVal)
  | obj (fields : List (String × JVal))

/-- A JavaScript object literal: ordered list of key/value pairs. -/
abbrev JObj := List (String × JVal)

/-- JavaScript truthiness of a value (`if (v)`). -/
def jvTruthy : JVal → Bool
  | .null => false
  | .bool b => b
  | .num n => n != 0
  | .str s => s ≠ ""
  | .arr _ => true
  | .obj _ => true

/-- Truthiness of a possibly-absent value: `undefined` is falsy. -/
def optTruthy : Option JVal → Bool
  | none => false
  | some v => jvTruthy v

/-- Property lookup on an object literal (first occurrence of the key). -/
def lookupObj : JObj → String → Option JVal
  | [], _ => none
  | kv :: rest, k => if kv.1 = k then some kv.2 else lookupObj rest k

/-- Property access `v.k` for an object value; `none` models `undefined`.
(Used only where the source reads properties of a JSON response body.) -/
def jvLookup : JVal → String → Option JVal
  | .obj fields, k => lookupObj fields k
  | _, _ => none

/-- One key/value pair of `base`, overridden by `extra` when `extra` also
carries the key (helper for `assign`). -/
def overrideVal (extra : JObj) (kv : String × JVal) : String × JVal :=
  match lookupObj extra kv.1 with
  | some v => (kv.1, v)
  | none => kv

/-- `Object.assign({}, base, extra)`: the keys of `base` in order, with
values overridden by `extra` where present, followed by the keys of `extra`
that `base` does not carry. -/
def assign (base extra : JObj) : JObj :=
  base.map (overrideVal extra) ++
    extra.filter (fun kv => (lookupObj base kv.1).isNone)

/-- A transport/API error, as produced by the external request layer and
delivered as the first argument of a completion callback. -/
structure ApiErr where
  message : String

/-- A synchronously thrown JavaScript `Error` (e.g. the invalid-argument
errors thrown by `Resource#project` and `Resource#operation`). -/
structure JsError where
  message : String

/-- The request descriptor handed to the inherited `this.request` transport:
`{method, uri, json|body|qs}` exactly as built by the source methods.
A `method` of `none` means the method key is omitted (the transport's
default verb, GET, applies). -/
structure ReqOpts where
  method : Option String := none
  uri : String
  json : Option JObj := none
  body : Option JObj := none
  qs : Option JObj := none

/-- The local `Project` handle returned by `Resource#project`: its `id` (the
value passed to the `ServiceObject` config) and its `metadata` property,
`none` until assigned.  Construction performs no network request. -/
structure ProjectHandle where
  id : JVal
  metadata : Option JVal := none

/-- The local `Operation` handle returned by `Resource#operation`: its `id`
(the operation name) and its `metadata` property, `none` until assigned. -/
structure OperationHandle where
  id : JVal
  metadata : Option JVal := none

/-- The part of a `Resource` instance's state the factory methods read:
`this.projectId`, the default project id resolved from the client
configuration (`none` when no default is configured). -/
structure ResourceState where
  projectId : Option JVal := none

/-- `id || this.projectId` — JavaScript `||` fallback on truthiness. -/
def jsOr (a b : Option JVal) : Option JVal :=
  if optTruthy a then a else b

/-- `Resource#project(id?)` (part_000 lines 451-457):
`id = id || this.projectId; if (!id) throw new Error('A project ID is
required.'); return new Project(this, id)`.  The `Project` constructor
(part_001 lines 178-404) only records the configuration and method table, so
construction issues no request and the handle's `metadata` starts unset. -/
def resourceProject (st : ResourceState) (idArg : Option JVal) :
    Except JsError ProjectHandle :=
  let idv := jsOr idArg st.projectId
  match idv with
  | some v => if jvTruthy v then .ok ⟨v, none⟩
              else .error ⟨"A project ID is required."⟩
  | none => .error ⟨"A project ID is required."⟩

/-- The `Project` constructor performs no `this.request` call: the list of
requests issued while constructing a `Project` handle is empty. -/
def projectCtorRequests : List ReqOpts := []

/-- `Resource#operation(name)` (part_000 lines 429-434):
`if (!name) throw new Error('A name must be specified for an operation.');
return new Operation({parent: this, id: name})`. -/
def resourceOperation (name : Option JVal) : Except JsError OperationHandle :=
  match name with
  | some v => if jvTruthy v then .ok ⟨v, none⟩
              else .error ⟨"A name must be specified for an operation."⟩
  | none => .error ⟨"A name must be specified for an operation."⟩

/-- A positional argument passed to a user callback. -/
inductive CbVal where
  | null
  | undefinedArg
  | error (e : ApiErr)
  | raw (v : JVal)
  | project (p : ProjectHandle)
  | projects (ps : List ProjectHandle)
  | operation (o : OperationHandle)

/-- The first callback argument: the transport error, or `null` on success
(the handlers forward `err` verbatim). -/
def errArg : Option ApiErr → CbVal
  | some e => .error e
  | none => .null

/-- A callback value as seen by the completion handlers: either the shared
`util.noop`, or a function supplied by the caller. -/
inductive Cb where
  | noop
  | user

/-- What happens when a completion handler fires. -/
inductive Completion where
  /-- The caller-supplied callback was invoked with `args`. -/
  | invoked (args : List CbVal)
  /-- The default `util.noop` callback received (and dropped) `args`. -/
  | discarded (args : List CbVal)
  /-- The handler evaluated `callback!(…)` with `callback` still
  `undefined`: a TypeError (null invocation) is raised. -/
  | nullCallbackFailure

/-- JavaScript invocation of a possibly-undefined callback value. -/
def invoke : Option Cb → List CbVal → Completion
  | none, _ => .nullCallbackFailure
  | some .noop, args => .discarded args
  | some .user, args => .invoked args

/-- The first positional argument of a dual-mode method: either an options
object or the callback function. -/
inductive ArgVal where
  | options (o : JObj)
  | cb (c : Cb)

/-- `const options = typeof optionsOrCallback === 'object' ?
optionsOrCallback : {}` — only an object first argument supplies options. -/
def optionsOf : Option ArgVal → JObj
  | some (.options o) => o
  | _ => []

/-- `callback = typeof optionsOrCallback === 'function' ? optionsOrCallback
: callback` — a function first argument becomes the callback. -/
def callbackOf : Option ArgVal → Option Cb → Option Cb
  | some (.cb c), _ => some c
  | _, c => c

/-- One run of a method: the requests it issued (always exactly one for
every method of this library) and what its completion handler did. -/
structure MethodRun where
  requests : List ReqOpts
  completion : Completion

/-! ### Resource.createProject (part_000 lines 290-318) -/

/-- The JSON body of the create-project request:
`Object.assign({}, options, {projectId: id})`. -/
def createProjectBody (id : String) (options : JObj) : JObj :=
  assign options [("projectId", .str id)]

/-- The request descriptor built by `createProject`:
`{method: 'POST', uri: '/projects', json: Object.assign({}, options,
{projectId: id})}`. -/
def createProjectReq (id : String) (options : JObj) : ReqOpts :=
  { method := some "POST", uri := "/projects",
    json := some (createProjectBody id options) }

/-- The completion handler of `createProject` (part_000 lines 307-316):
on error, `callback!(err, null, resp)`; on success it builds
`this.project(resp.projectId)` and `this.operation(resp.name)`, sets
`operation.metadata = resp`, and calls
`callback!(null, project, operation, resp)`.  A throw from `project`/
`operation` (absent or falsy field) propagates as `.error`. -/
def createProjectComplete (st : ResourceState) (err : Option ApiErr)
    (resp : JVal) : Except JsError (List CbVal) :=
  match err with
  | some e => .ok [.error e, .null, .raw resp]
  | none =>
    match resourceProject st (jvLookup resp "projectId") with
    | .error ex => .error ex
    | .ok project =>
      match resourceOperation (jvLookup resp "name") with
      | .error ex => .error ex
      | .ok operation =>
        .ok [.null, .project project,
             .operation { operation with metadata := some resp }, .raw resp]

/-- A full run of `createProject(id, options, callback)`: one POST to
`/projects`, then the completion handler applied to the transport's
`(err, resp)` pair. -/
def createProjectRun (st : ResourceState) (id : String) (options : JObj)
    (err : Option ApiErr) (resp : JVal) :
    List ReqOpts × Except JsError (List CbVal) :=
  ([createProjectReq id options], createProjectComplete st err resp)

/-! ### Resource.getProjects (part_000 lines 374-410) -/

/-- The request descriptor built by `getProjects`:
`{uri: '/projects', qs: options}` (no explicit method: the transport's
default GET verb applies). -/
def getProjectsReq (options : JObj) : ReqOpts :=
  { uri := "/projects", qs := some options }

/-- `resp.projects || []`, then readiness for `.map`: a falsy `projects`
property yields `[]`; a truthy non-array value would make `.map` throw. -/
def getRecords (resp : JVal) : Except JsError (List JVal) :=
  match jvLookup resp "projects" with
  | some v =>
    if jvTruthy v then
      match v with
      | .arr l => .ok l
      | _ => .error ⟨"resp.projects.map is not a function"⟩
    else .ok []
  | none => .ok []

/-- `(resp.projects || []).map(project => { const projectInstance =
this.project(project.projectId); projectInstance.metadata = project;
return projectInstance; })` — each raw record becomes a `Project` handle
whose `metadata` is that record; a throw from `this.project` propagates. -/
def mapProjects (st : ResourceState) : List JVal →
    Except JsError (List ProjectHandle)
  | [] => .ok []
  | r :: rest =>
    match resourceProject st (jvLookup r "projectId") with
    | .error e => .error e
    | .ok p =>
      match mapProjects st rest with
      | .error e => .error e
      | .ok ps => .ok ({ p with metadata := some r } :: ps)

/-- The continuation argument of `getProjects`: `nextQuery` stays
`undefined` unless `resp.nextPageToken` is truthy, in which case it is
`Object.assign({}, options, {pageToken: resp.nextPageToken})`. -/
def getProjectsNextQuery (options : JObj) (resp : JVal) : CbVal :=
  match jvLookup resp "nextPageToken" with
  | some tok =>
    if jvTruthy tok then .raw (.obj (assign options [("pageToken", tok)]))
    else .undefinedArg
  | none => .undefinedArg

/-- The completion handler of `getProjects` (part_000 lines 387-408):
on error `callback!(err, null, null, resp)`; on success
`callback!(null, projects, nextQuery!, resp)` with `projects` the mapped
records and `nextQuery!` `undefined` when no truthy next-page token. -/
def getProjectsComplete (st : ResourceState) (options : JObj)
    (err : Option ApiErr) (resp : JVal) : Except JsError (List CbVal) :=
  match err with
  | some e => .ok [.error e, .null, .null, .raw resp]
  | none =>
    match getRecords resp with
    | .error e => .error e
    | .ok records =>
      match mapProjects st records with
      | .error e => .error e
      | .ok projects =>
        .ok [.null, .projects projects, getProjectsNextQuery options resp,
             .raw resp]

/-- A full run of `getProjects(options, callback)`. -/
def getProjectsRun (st : ResourceState) (options : JObj)
    (err : Option ApiErr) (resp : JVal) :
    List ReqOpts × Except JsError (List CbVal) :=
  ([getProjectsReq options], getProjectsComplete st options err resp)

/-! ### Project methods (part_001) -/

/-- `Project#getIamPolicy` request (part_001 lines 465-472):
`{method: 'POST', uri: ':getIamPolicy', body: {options}}`. -/
def getIamPolicyReq (options : JObj) : ReqOpts :=
  { method := some "POST", uri := ":getIamPolicy",
    body := some [("options", .obj options)] }

/-- A run of `getIamPolicy(optionsOrCallback?, callback?)` (part_001 lines
456-477): options and callback resolved by the `typeof` ternaries, no
default callback substituted, handler `(err, resp) => callback!(err, resp)`. -/
def getIamPolicyRun (a : Option ArgVal) (c : Option Cb)
    (err : Option ApiErr) (resp : JVal) : MethodRun :=
  { requests := [getIamPolicyReq (optionsOf a)],
    completion := invoke (callbackOf a c) [errArg err, .raw resp] }

/-- A run of `restore(callback?)` (part_001 lines 511-522):
`callback = callback || util.noop`, request
`{method: 'POST', uri: ':undelete'}`, handler
`(err, resp) => callback!(err, resp)`. -/
def restoreRun (c : Option Cb) (err : Option ApiErr) (resp : JVal) :
    MethodRun :=
  { requests := [{ method := some "POST", uri := ":undelete" }],
    completion := invoke (some (c.getD .noop)) [errArg err, .raw resp] }

/-- A run of `getAncestry(callback?)` (part_001 lines 561-574):
`callback = callback || util.noop`, request
`{method: 'POST', uri: ':getAncestry'}`, handler forwards `(err, resp)`. -/
def getAncestryRun (c : Option Cb) (err : Option ApiErr) (resp : JVal) :
    MethodRun :=
  { requests := [{ method := some "POST", uri := ":getAncestry" }],
    completion := invoke (some (c.getD .noop)) [errArg err, .raw resp] }

/-- A run of `getEffectiveOrgPolicy(constraint, callback?)` (part_001 lines
618-634): no default callback, request `{method: 'POST', uri:
':getEffectiveOrgPolicy', body: {constraint}}`, handler forwards
`(err, resp)`. -/
def getEffectiveOrgPolicyRun (constraint : JVal) (c : Option Cb)
    (err : Option ApiErr) (resp : JVal) : MethodRun :=
  { requests := [{ method := some "POST", uri := ":getEffectiveOrgPolicy",
                   body := some [("constraint", constraint)] }],
    completion := invoke c [errArg err, .raw resp] }

/-- A run of `getOrgPolicy(constraint, callback?)` (part_001 lines 675-692):
`callback = callback || util.noop`, request `{method: 'POST', uri:
':getOrgPolicy', body: {constraint}}`, handler forwards `(err, resp)`. -/
def getOrgPolicyRun (constraint : JVal) (c : Option Cb)
    (err : Option ApiErr) (resp : JVal) : MethodRun :=
  { requests := [{ method := some "POST", uri := ":getOrgPolicy",
                   body := some [("constraint", constraint)] }],
    completion := invoke (some (c.getD .noop)) [errArg err, .raw resp] }

/-- A run of `getAvailableOrgPolicyConstraints(optionsOrCallback?,
callback?)` (part_001 lines 757-777): options/callback ternaries, request
`{method: 'POST', uri: ':listAvailableOrgPolicyConstraints', qs: options}`,
handler `(err, constraints, ...resp) => callback!(err, constraints,
...resp)`.  The transport invokes its handler with the `(err, body)` pair,
so `constraints` is bound to the raw response body and the rest-spread is
empty: the user callback receives exactly `(err, resp)`. -/
def getAvailableOrgPolicyConstraintsRun (a : Option ArgVal) (c : Option Cb)
    (err : Option ApiErr) (resp : JVal) : MethodRun :=
  { requests := [{ method := some "POST",
                   uri := ":listAvailableOrgPolicyConstraints",
                   qs := some (optionsOf a) }],
    completion := invoke (callbackOf a c) [errArg err, .raw resp] }

/-! ### Concrete inputs used to instantiate the theorems below -/

/-- A sample transport error. -/
def sampleErr : ApiErr := ⟨"Error."⟩

/-- A sample raw API response body. -/
def sampleResp : JVal := .obj [("a", .str "b"), ("c", .str "d")]

/-- A successful create-project response body. -/
def createResp : JVal :=
  .obj [("projectId", .str "new-project-id"),
        ("name", .str "operations/cp.1234")]

/-- Options for a create-project call that themselves carry `projectId`. -/
def optionsWithProjectId : JObj :=
  [("projectId", .str "from-options"), ("name", .str "Display Name")]

/-- A raw project record as returned in a list-projects response. -/
def recordA : JVal :=
  .obj [("projectId", .str "project-a"), ("lifecycleState", .str "ACTIVE")]

/-- A second raw project record. -/
def recordB : JVal := .obj [("projectId", .str "project-b")]

/-- A list-projects response with two records and no next-page token. -/
def listResp : JVal := .obj [("projects", .arr [recordA, recordB])]

/-- The records of `listResp`, as a list. -/
def witnessRecords : List JVal := [recordA, recordB]

/-- The Project handles `getProjects` builds for `witnessRecords`. -/
def witnessHandles : List ProjectHandle :=
  [⟨.str "project-a", some recordA⟩, ⟨.str "project-b", some recordB⟩]

/-- A list-projects response carrying a non-empty next-page token. -/
def listRespTok : JVal :=
  .obj [("projects", .arr []), ("nextPageToken", .str "tok-2")]

/-- A list-projects response whose `nextPageToken` property is present but
is the empty string (falsy in JavaScript). -/
def listRespEmptyTok : JVal :=
  .obj [("nextPageToken", .str ""), ("projects", .arr [])]

/-- Sample options for a list-projects call. -/
def listOptions : JObj := [("pageSize", .num 2)]

/-- A raw constraint record of a list-available-org-policy-constraints
response. -/
def constraintRecord : JVal :=
  .obj [("name", .str "constraints/serviceuser.services")]

/-- A successful list-available-org-policy-constraints response carrying
one constraint and a next-page token. -/
def availConstraintsResp : JVal :=
  .obj [("constraints", .arr [constraintRecord]),
        ("nextPageToken", .str "page-two")]

/-! ### Helper lemmas -/

/-- Merging a single-key object always wins that key: looking up `k` in
`Object.assign({}, o, {k: v})` yields `v`, whether or not `o` carried `k`. -/
theorem lookupObj_assign_single (o : JObj) (k : String) (v : JVal) :
    lookupObj (assign o [(k, v)]) k = some v := by
  induction o with
  | nil => simp [assign, lookupObj]
  | cons kv rest ih =>
    by_cases h : kv.1 = k
    · simp [assign, overrideVal, lookupObj, h]
    · have hk : ¬((k, v).1 = kv.1) := fun e => h e.symm
      have hhead : overrideVal [(k, v)] kv = kv := by
        simp [overrideVal, lookupObj, hk]
      have htail :
          [(k, v)].filter (fun p => (lookupObj (kv :: rest) p.1).isNone)
            = [(k, v)].filter (fun p => (lookupObj rest p.1).isNone) := by
        simp only [List.filter_cons, lookupObj]
        rw [if_neg h]
        simp
      calc lookupObj (assign (kv :: rest) [(k, v)]) k
      _ = lookupObj (kv :: assign rest [(k, v)]) k := by
        simp [assign, hhead, htail]
      _ = some v := by simp [lookupObj, h, ih]

/-! ### C10 -/

/-- C10: the explicit `id` argument of `createProject` always overrides a
`projectId` supplied inside `options`: the issued JSON body's `projectId`
equals `id`. -/
theorem createProject_id_overrides_options (id : String) (options : JObj)
    (w : JVal) (hw : lookupObj options "projectId" = some w) :
    lookupObj (createProjectBody id options) "projectId"
      = some (.str id) :=
  lookupObj_assign_single options "projectId" (.str id)

/-- Witness for C10 at options that carry `projectId: 'from-options'`. -/
theorem createProject_id_overrides_options_witness :
    lookupObj optionsWithProjectId "projectId" = some (.str "from-options")
    ∧ lookupObj (createProjectBody "explicit-id" optionsWithProjectId)
        "projectId" = some (.str "explicit-id") :=
  ⟨rfl, createProject_id_overrides_options "explicit-id" optionsWithProjectId
    (.str "from-options") rfl⟩

/-! ### C2 -/

/-- C2 counterexample: on a transport error, `createProject`'s handler runs
`callback!(err, null, resp)` — three positional arguments — so the raw
response occupies the third position, which is the `operation` parameter of
`CreateProjectCallback`.  The operation argument is therefore not absent (it
is bound to the raw response), contradicting the claim. -/
theorem createProject_error_operation_slot_occupied :
    createProjectComplete ⟨none⟩ (some sampleErr) sampleResp
      = .ok [.error sampleErr, .null, .raw sampleResp]
    ∧ [CbVal.error sampleErr, CbVal.null, CbVal.raw sampleResp][2]?
        = some (.raw sampleResp)
    ∧ some (CbVal.raw sampleResp) ≠ (none : Option CbVal) :=
  ⟨rfl, rfl, by simp⟩

/-- C2 amended: on a transport error, the callback is invoked with exactly
`(err, null, resp)`: the error first, `null` for the project, and the raw
response as the third argument (the position of the operation parameter),
with no fourth argument; no Project and no Operation handle is built. -/
theorem createProject_error_invocation (st : ResourceState) (e : ApiErr)
    (resp : JVal) :
    createProjectComplete st (some e) resp
      = .ok [.error e, .null, .raw resp] := rfl

/-! ### C4 -/

/-- C4: when the promise layer is bypassed and no callback is supplied,
`restore`, `getOrgPolicy` and `getAncestry` substitute `util.noop` (errors
are silently discarded and nothing is thrown), while `getIamPolicy` and
`getEffectiveOrgPolicy` leave the callback `undefined` and their completion
handlers fail with a null invocation; `restore()` with zero arguments does
not throw, and with a callback it delivers the transport error unchanged as
the first argument. -/
theorem optional_callback_asymmetry (constraint : JVal) (err : Option ApiErr)
    (resp : JVal) :
    (restoreRun none err resp).completion
        = .discarded [errArg err, .raw resp]
    ∧ (getOrgPolicyRun constraint none err resp).completion
        = .discarded [errArg err, .raw resp]
    ∧ (getAncestryRun none err resp).completion
        = .discarded [errArg err, .raw resp]
    ∧ (getIamPolicyRun none none err resp).completion
        = .nullCallbackFailure
    ∧ (getEffectiveOrgPolicyRun constraint none err resp).completion
        = .nullCallbackFailure
    ∧ (restoreRun none err resp).completion ≠ .nullCallbackFailure
    ∧ ∀ e : ApiErr, (restoreRun (some .user) (some e) resp).completion
        = .invoked [.error e, .raw resp] :=
  ⟨rfl, rfl, rfl, rfl, rfl, by simp [restoreRun, invoke], fun _ => rfl⟩

/-! ### C7 -/

/-- C7: evaluated at a successful response carrying one constraint record
and a next-page token, `getAvailableOrgPolicyConstraints` issues the
documented `POST :listAvailableOrgPolicyConstraints` with the options as
query string, but its handler `(err, constraints, ...resp)` receives the
transport's `(err, body)` pair, so the user callback gets exactly
`(null, rawResponse)`: the raw list response sits in the `constraints`
position and there is no continuation-query or raw-response argument. -/
theorem getAvailableOrgPolicyConstraints_forwards_raw_response :
    (getAvailableOrgPolicyConstraintsRun (some (.options [])) (some .user)
        none availConstraintsResp).requests
      = [{ method := some "POST",
           uri := ":listAvailableOrgPolicyConstraints", qs := some [] }]
    ∧ (getAvailableOrgPolicyConstraintsRun (some (.options [])) (some .user)
        none availConstraintsResp).completion
      = .invoked [.null, .raw availConstraintsResp]
    ∧ [CbVal.null, CbVal.raw availConstraintsResp].length = 2 :=
  ⟨rfl, rfl, rfl⟩

/-! ### C8 -/

/-- C8: every `getIamPolicy` call issues exactly one
`POST :getIamPolicy` whose body is `{options}` — with `options = {}` when
only a callback is supplied — and the handler passes the transport's
`(error, policy)` pair to the callback verbatim. -/
theorem getIamPolicy_request_and_verbatim_passthrough (o : JObj)
    (err : Option ApiErr) (resp : JVal) :
    (getIamPolicyRun (some (.options o)) (some .user) err resp).requests
      = [{ method := some "POST", uri := ":getIamPolicy",
           body := some [("options", .obj o)] }]
    ∧ (getIamPolicyRun (some (.cb .user)) none err resp).requests
      = [{ method := some "POST", uri := ":getIamPolicy",
           body := some [("options", .obj [])] }]
    ∧ (getIamPolicyRun (some (.options o)) (some .user) err resp).completion
      = .invoked [errArg err, .raw resp]
    ∧ (getIamPolicyRun (some (.cb .user)) none err resp).completion
      = .invoked [errArg err, .raw resp]
    ∧ (getIamPolicyRun (some (.options o)) (some .user) err
        resp).requests.length = 1 :=
  ⟨rfl, rfl, rfl, rfl, rfl⟩

/-! ### C1 -/

/-- C1: `createProject(id, options)` issues one `POST /projects` whose JSON
body is the options merged with `{projectId: id}`, and on an error-free
completion whose response carries (truthy) `projectId` and `name` fields it
invokes the callback with `(null, project, operation, resp)` in that order:
the Project built from `resp.projectId`, the Operation built from
`resp.name` with its `metadata` set to the raw response, then the raw
response. -/
theorem createProject_success_contract
    (st : ResourceState) (id : String) (options : JObj) (resp : JVal)
    (pid nm : JVal)
    (hpid : jvLookup resp "projectId" = some pid)
    (hpidT : jvTruthy pid = true)
    (hnm : jvLookup resp "name" = some nm)
    (hnmT : jvTruthy nm = true) :
    createProjectRun st id options none resp
      = ([{ method := some "POST", uri := "/projects",
            json := some (assign options [("projectId", .str id)]) }],
         .ok [.null, .project ⟨pid, none⟩,
              .operation ⟨nm, some resp⟩, .raw resp]) := by
  unfold createProjectRun createProjectReq createProjectBody
    createProjectComplete
  rw [hpid, hnm]
  simp [resourceProject, resourceOperation, jsOr, optTruthy, hpidT, hnmT]

/-- Witness for C1 at a concrete create-project response. -/
theorem createProject_success_contract_witness :
    jvLookup createResp "projectId" = some (.str "new-project-id")
    ∧ jvTruthy (JVal.str "new-project-id") = true
    ∧ jvLookup createResp "name" = some (.str "operations/cp.1234")
    ∧ jvTruthy (JVal.str "operations/cp.1234") = true
    ∧ createProjectRun ⟨none⟩ "new-project-id" optionsWithProjectId none
        createResp
      = ([{ method := some "POST", uri := "/projects",
            json := some (assign optionsWithProjectId
              [("projectId", .str "new-project-id")]) }],
         .ok [.null, .project ⟨.str "new-project-id", none⟩,
              .operation ⟨.str "operations/cp.1234", some createResp⟩,
              .raw createResp]) :=
  ⟨rfl, by decide, rfl, by decide,
   createProject_success_contract ⟨none⟩ "new-project-id"
     optionsWithProjectId createResp (.str "new-project-id")
     (.str "operations/cp.1234") rfl (by decide) rfl (by decide)⟩

/-! ### C5 -/

/-- C5 counterexample: with a configured default project id, `project('')`
falls back to the default (`id = id || this.projectId` on the falsy empty
string), so the returned handle's id is the default, not the argument. -/
theorem project_empty_id_counterexample :
    resourceProject ⟨some (.str "default-project")⟩ (some (.str ""))
      = .ok ⟨.str "default-project", none⟩
    ∧ JVal.str "default-project" ≠ JVal.str "" :=
  ⟨rfl, by simp⟩

/-- C5 amended: for every non-empty project id `p`, `resource.project(p)`
returns a Project handle whose id is `p`, and the construction issues no
network request. -/
theorem project_returns_id (st : ResourceState) (p : String) (hp : p ≠ "") :
    resourceProject st (some (.str p)) = .ok ⟨.str p, none⟩
    ∧ projectCtorRequests = [] := by
  refine ⟨?_, rfl⟩
  simp [resourceProject, jsOr, optTruthy, jvTruthy, hp]

/-- Witness for C5 (amended) at a concrete non-empty id. -/
theorem project_returns_id_witness :
    ("grape-spaceship-123" : String) ≠ ""
    ∧ (resourceProject ⟨none⟩ (some (.str "grape-spaceship-123"))
        = .ok ⟨.str "grape-spaceship-123", none⟩
      ∧ projectCtorRequests = []) :=
  ⟨by decide, project_returns_id ⟨none⟩ "grape-spaceship-123" (by decide)⟩

/-! ### C6 -/

/-- C6: `project()` with no id and no configured default throws the
invalid-argument error, `operation('')` throws its invalid-argument error,
and whenever an explicit id or a configured default is available `project`
returns a handle normally. -/
theorem project_operation_invalid_arguments (st : ResourceState)
    (idArg : Option JVal) :
    resourceProject ⟨none⟩ none = .error ⟨"A project ID is required."⟩
    ∧ resourceOperation (some (.str ""))
        = .error ⟨"A name must be specified for an operation."⟩
    ∧ (optTruthy idArg = true → ∃ h, resourceProject st idArg = .ok h)
    ∧ (optTruthy st.projectId = true →
        ∃ h, resourceProject st idArg = .ok h) := by
  refine ⟨rfl, rfl, ?_, ?_⟩
  · intro h
    cases hia : idArg with
    | none => rw [hia] at h; simp [optTruthy] at h
    | some v =>
      rw [hia] at h
      simp [optTruthy] at h
      refine ⟨⟨v, none⟩, ?_⟩
      simp [resourceProject, jsOr, optTruthy, hia, h]
  · intro hd
    by_cases ha : optTruthy idArg = true
    · cases hia : idArg with
      | none => rw [hia] at ha; simp [optTruthy] at ha
      | some v =>
        rw [hia] at ha
        simp [optTruthy] at ha
        refine ⟨⟨v, none⟩, ?_⟩
        simp [resourceProject, jsOr, optTruthy, hia, ha]
    · cases hsp : st.projectId with
      | none => rw [hsp] at hd; simp [optTruthy] at hd
      | some v =>
        rw [hsp] at hd
        simp [optTruthy] at hd
        refine ⟨⟨v, none⟩, ?_⟩
        simp [resourceProject, jsOr, ha, hsp, hd]

/-- Witness for C6: both an explicit id and a configured default make
`project` return normally. -/
theorem project_operation_invalid_arguments_witness :
    optTruthy (some (.str "explicit-p")) = true
    ∧ (∃ h, resourceProject ⟨some (.str "default-p")⟩
        (some (.str "explicit-p")) = .ok h) :=
  ⟨by decide,
   (project_operation_invalid_arguments ⟨some (.str "default-p")⟩
     (some (.str "explicit-p"))).2.2.1 (by decide)⟩

/-! ### C3 -/

/-- C3 counterexample: a successful response that does contain a
`nextPageToken` property, but with the empty string as its value, yields an
`undefined` continuation (the source tests `if (resp.nextPageToken)`, a
truthiness check), not the options merged with the token as claimed. -/
theorem getProjects_empty_token_counterexample :
    jvLookup listRespEmptyTok "nextPageToken" = some (.str "")
    ∧ getProjectsComplete ⟨none⟩ [] none listRespEmptyTok
        = .ok [.null, .projects [], .undefinedArg, .raw listRespEmptyTok]
    ∧ CbVal.undefinedArg ≠ CbVal.raw (.obj (assign [] [("pageToken", .str "")])) :=
  ⟨rfl, rfl, by simp⟩

/-- C3 amended: on a successful `getProjects` completion, if the response
carries a truthy (non-empty) `nextPageToken` the third callback argument is
the original options merged with `{pageToken: <token>}`; if the token
property is absent, or present but falsy, the third argument is `undefined`
— which is not an object, in particular not the empty object. -/
theorem getProjects_continuation (st : ResourceState) (options : JObj)
    (resp : JVal) (inv : List CbVal)
    (hok : getProjectsComplete st options none resp = .ok inv) :
    (∀ tok, jvLookup resp "nextPageToken" = some tok →
      jvTruthy tok = true →
      inv[2]? = some (.raw (.obj (assign options [("pageToken", tok)]))))
    ∧ (∀ tok, jvLookup resp "nextPageToken" = some tok →
      jvTruthy tok = false → inv[2]? = some .undefinedArg)
    ∧ (jvLookup resp "nextPageToken" = none → inv[2]? = some .undefinedArg)
    ∧ ∀ q : JObj, CbVal.undefinedArg ≠ CbVal.raw (.obj q) := by
  have hinv : ∃ ps, inv = [.null, .projects ps,
      getProjectsNextQuery options resp, .raw resp] := by
    unfold getProjectsComplete at hok
    simp only [] at hok
    cases hr : getRecords resp with
    | error e => rw [hr] at hok; simp at hok
    | ok records =>
      rw [hr] at hok
      simp only [] at hok
      cases hm : mapProjects st records with
      | error e => rw [hm] at hok; simp at hok
      | ok ps =>
        rw [hm] at hok
        simp at hok
        exact ⟨ps, hok.symm⟩
  obtain ⟨ps, hinv⟩ := hinv
  subst hinv
  refine ⟨?_, ?_, ?_, by simp⟩
  · intro tok htok htrue
    simp [getProjectsNextQuery, htok, htrue]
  · intro tok htok hfalse
    simp [getProjectsNextQuery, htok, hfalse]
  · intro hnone
    simp [getProjectsNextQuery, hnone]

/-- Witness for C3 (amended) at a response with a non-empty token. -/
theorem getProjects_continuation_witness :
    getProjectsComplete ⟨none⟩ listOptions none listRespTok
      = .ok [.null, .projects [],
             .raw (.obj [("pageSize", .num 2), ("pageToken", .str "tok-2")]),
             .raw listRespTok]
    ∧ jvLookup listRespTok "nextPageToken" = some (.str "tok-2")
    ∧ jvTruthy (JVal.str "tok-2") = true
    ∧ ([CbVal.null, .projects [],
        .raw (.obj [("pageSize", .num 2), ("pageToken", .str "tok-2")]),
        .raw listRespTok] : List CbVal)[2]?
      = some (.raw (.obj (assign listOptions [("pageToken", .str "tok-2")]))) :=
  ⟨rfl, rfl, by decide,
   (getProjects_continuation ⟨none⟩ listOptions listRespTok
     [.null, .projects [],
      .raw (.obj [("pageSize", .num 2), ("pageToken", .str "tok-2")]),
      .raw listRespTok] rfl).1 (.str "tok-2") rfl (by decide)⟩

/-! ### C9 -/

/-- Pointwise specification of the record-to-Project mapping of
`getProjects`: a successful map has one handle per record, in order, each
built by `resourceProject` on the record's `projectId` and carrying the raw
record as its `metadata`. -/
theorem mapProjects_spec (st : ResourceState) (l : List JVal) :
    ∀ ps, mapProjects st l = .ok ps →
      ps.length = l.length ∧
      ∀ i (hi : i < l.length) (hp : i < ps.length),
        ∃ q, resourceProject st (jvLookup (l.get ⟨i, hi⟩) "projectId")
              = .ok q
          ∧ ps.get ⟨i, hp⟩ = { q with metadata := some (l.get ⟨i, hi⟩) } := by
  induction l with
  | nil =>
    intro ps h
    simp [mapProjects] at h
    subst h
    exact ⟨rfl, fun i hi => absurd hi (by simp)⟩
  | cons r rest ih =>
    intro ps h
    unfold mapProjects at h
    cases hq : resourceProject st (jvLookup r "projectId") with
    | error e => rw [hq] at h; simp at h
    | ok p =>
      rw [hq] at h
      cases hrest : mapProjects st rest with
      | error e => rw [hrest] at h; simp at h
      | ok ps' =>
        rw [hrest] at h
        simp at h
        subst h
        obtain ⟨hlen, hget⟩ := ih ps' hrest
        refine ⟨by simp [hlen], ?_⟩
        intro i hi hp
        cases i with
        | zero => exact ⟨p, hq, rfl⟩
        | succ j =>
          have hj : j < rest.length := by simpa using hi
          have hpj : j < ps'.length := by simpa using hp
          obtain ⟨q, h1, h2⟩ := hget j hj hpj
          exact ⟨q, h1, h2⟩

/-- C9: on a successful `getProjects` completion whose response's
`projects` property is an array of records mapping without a throw, the
callback's project list is exactly those records mapped in order: one
handle per record, built by `resource.project` on the record's `projectId`,
with `metadata` pre-set to the raw record. -/
theorem getProjects_maps_records (st : ResourceState) (options : JObj)
    (resp : JVal) (l : List JVal) (ps : List ProjectHandle)
    (hl : jvLookup resp "projects" = some (.arr l))
    (hm : mapProjects st l = .ok ps) :
    getProjectsComplete st options none resp
      = .ok [.null, .projects ps, getProjectsNextQuery options resp,
             .raw resp]
    ∧ ps.length = l.length
    ∧ ∀ i (hi : i < l.length) (hp : i < ps.length),
        ∃ q, resourceProject st (jvLookup (l.get ⟨i, hi⟩) "projectId")
              = .ok q
          ∧ ps.get ⟨i, hp⟩ = { q with metadata := some (l.get ⟨i, hi⟩) } := by
  have hr : getRecords resp = .ok l := by simp [getRecords, hl, jvTruthy]
  obtain ⟨hlen, hget⟩ := mapProjects_spec st l ps hm
  refine ⟨?_, hlen, hget⟩
  unfold getProjectsComplete
  rw [hr]
  simp only []
  rw [hm]

/-- Witness for C9 at a two-record list response. -/
theorem getProjects_maps_records_witness :
    jvLookup listResp "projects" = some (.arr witnessRecords)
    ∧ mapProjects ⟨none⟩ witnessRecords = .ok witnessHandles
    ∧ (getProjectsComplete ⟨none⟩ [] none listResp
        = .ok [.null, .projects witnessHandles,
               getProjectsNextQuery [] listResp, .raw listResp]
      ∧ witnessHandles.length = witnessRecords.length
      ∧ ∀ i (hi : i < witnessRecords.length)
          (hp : i < witnessHandles.length),
          ∃ q, resourceProject ⟨none⟩
                (jvLookup (witnessRecords.get ⟨i, hi⟩) "projectId") = .ok q
            ∧ witnessHandles.get ⟨i, hp⟩
              = { q with metadata := some (witnessRecords.get ⟨i, hi⟩) }) :=
  ⟨rfl, rfl, getProjects_maps_records ⟨none⟩ [] listResp witnessRecords
    witnessHandles rfl rfl⟩

end Spec2Proof
